import Mathlib

/-!
Shallow embedding of `maintain.py` (linaro-its/lounge-maintenance) and
verification of its retention/eviction specification.

Conventions of the embedding:
* Python ints are `Int`; timestamps (`datetime` values) are totally ordered,
  so a file's modification time is an `Int`.
* The filesystem walk is abstracted as the list of files the walk visits, in
  visit order; `os.stat` data (mtime, size) is carried on each record.
* Fallible Python code (uncaught exceptions) is `Except PyErr`.
* Output (Slack posts / prints) is a list of messages; the embedding keeps
  the payload each message carries, not its formatted text.
-/

/-- Runtime errors the embedded code can raise: `IndexError` from
`sorted_list[index]` past the end, `TypeError` from `int > None`. -/
inductive PyErr where
  | indexError
  | typeError
  deriving DecidableEq, Repr

/-- One tuple `(full_name, date, size)` as built at maintain.py:88-90. -/
structure FileRecord where
  name : String
  date : Int
  size : Int
  deriving DecidableEq, Repr

/-- Total size of a list of records, mirroring the running `total_size`. -/
def sumSizes (l : List FileRecord) : Int :=
  (l.map FileRecord.size).sum

/-- Comparison used by `sorted(file_list, key=lambda x: x[1])`
(maintain.py:142): order by the date component only. -/
def dateLE (a b : FileRecord) : Prop :=
  a.date ≤ b.date

instance : DecidableRel dateLE := fun a b => Int.decLe a.date b.date

instance : IsTotal FileRecord dateLE := ⟨fun a b => Int.le_total a.date b.date⟩

instance : IsTrans FileRecord dateLE := ⟨fun _ _ _ => Int.le_trans⟩

/-- The call `sorted(file_list, key=lambda x: x[1])` at maintain.py:142.
Python's `sorted` is a stable sort by the key; `List.insertionSort` with
`dateLE` computes exactly that stable result (sorted by date, ties kept in
original encounter order) and is structurally recursive, hence executable. -/
def sortFiles (l : List FileRecord) : List FileRecord :=
  l.insertionSort dateLE

/-- The entry `delete_file` (maintain.py:159-162) writes into its report:
`f"{filename} ({mdate})\n"`, i.e. the pair of path and modification date.
The `os.remove` side effect is modelled by the caller dropping the record. -/
def delete_file (f : FileRecord) (io_report : List (String × Int)) :
    List (String × Int) :=
  io_report ++ [(f.name, f.date)]

/-- The `while total_size > max_storage` loop of `get_under_max_size`
(maintain.py:144-148), recursing over the suffix of the sorted list that
`index` has not yet reached.  Returns the deleted records (oldest first, the
data `delete_file` reports) and the final `total_size`.  When the list runs
out while the condition still holds, `sorted_list[index]` raises
`IndexError`. -/
def evictLoop (max_storage : Int) : List FileRecord → Int →
    Except PyErr (List FileRecord × Int)
  | files, total_size =>
    if total_size > max_storage then
      match files with
      | [] => .error .indexError
      | f :: rest =>
        (evictLoop max_storage rest (total_size - f.size)).map
          (fun p => (f :: p.1, p.2))
    else
      .ok ([], total_size)

/-- `get_under_max_size(file_list, total_size, max_storage)`
(maintain.py:138-157): sort by date, then delete oldest-first while over the
limit.  The report upload/print after the loop is the returned record list. -/
def get_under_max_size (file_list : List FileRecord) (total_size max_storage : Int) :
    Except PyErr (List FileRecord × Int) :=
  evictLoop max_storage (sortFiles file_list) total_size

/-- Local state of the scan loop in `process_folder` (maintain.py:76-91):
`total_size`, `file_list` and the `deleted_files_report` buffer. -/
structure ScanState where
  total_size : Int
  file_list : List FileRecord
  deleted_report : List (String × Int)
  deriving DecidableEq, Repr

/-- Body of the walk loop (maintain.py:80-91): a file older than
`earliest_date` is deleted and reported; otherwise it is appended to
`file_list` and its size added to `total_size`. -/
def scanStep (earliest_date : Int) (s : ScanState) (f : FileRecord) : ScanState :=
  if f.date < earliest_date then
    { s with deleted_report := delete_file f s.deleted_report }
  else
    { s with file_list := s.file_list ++ [f],
             total_size := s.total_size + f.size }

/-- The whole scan (maintain.py:76-91) over the files the walk visits, in
visit order, starting from `total_size = 0`, empty list, empty report. -/
def scanFolder (earliest_date : Int) (files : List FileRecord) : ScanState :=
  files.foldl (scanStep earliest_date)
    { total_size := 0, file_list := [], deleted_report := [] }

/-- Messages `process_folder` emits (posts or prints), keeping the payload
each one carries. -/
inductive Msg where
  /-- `report_header` output (maintain.py:56-63). -/
  | header (folder_name : String)
  /-- "A number of files have been deleted because they are over N days old"
  (maintain.py:96). -/
  | expiredNotice (days_to_keep : Int)
  /-- The upload/print of `deleted_files_report` (maintain.py:98-104). -/
  | expiredReport (entries : List (String × Int))
  /-- "Storage is over-limit. Need to free up N bytes" (maintain.py:110-111). -/
  | overLimit (bytes_to_free : Int)
  /-- The upload/print of the over-quota deletion report
  (maintain.py:149-157). -/
  | evictionReport (entries : List (String × Int))
  /-- The warning post (maintain.py:115-117). -/
  | warnMsg (total_size warn_storage : Int)
  deriving DecidableEq, Repr

/-- Whether a message is the folder header. -/
def Msg.isHeader : Msg → Bool
  | .header _ => true
  | _ => false

/-- `process_folder` (maintain.py:65-117), abstracted over the walk result
`files` and the computed `earliest_date` cutoff.  `warn_storage = none`
models a folder with no `warn_storage` key (maintain.py:70-73).  Returns the
emitted messages in order, and the uncaught exception if one is raised:
* the expired-files block (maintain.py:92-104) emits header, notice, report;
* over limit (maintain.py:105-112): header if not yet done, the over-limit
  post, then `get_under_max_size` (whose report is only printed if its loop
  finishes);
* otherwise `elif total_size > warn_storage` (maintain.py:113): with
  `warn_storage = None` this comparison raises `TypeError`. -/
def process_folder (folder_name : String) (days_to_keep earliest_date : Int)
    (files : List FileRecord) (max_storage : Int) (warn_storage : Option Int) :
    List Msg × Option PyErr :=
  let s := scanFolder earliest_date files
  let m1 : List Msg :=
    if s.deleted_report.isEmpty then []
    else [.header folder_name, .expiredNotice days_to_keep,
          .expiredReport s.deleted_report]
  let done1 : Bool := !s.deleted_report.isEmpty
  if s.total_size > max_storage then
    let target := match warn_storage with
      | some w => w
      | none => max_storage
    let hdr : List Msg := if done1 then [] else [.header folder_name]
    match get_under_max_size s.file_list s.total_size target with
    | .ok (d, _) =>
      (m1 ++ hdr ++ [.overLimit (s.total_size - target),
        .evictionReport (d.map (fun f => (f.name, f.date)))], none)
    | .error e =>
      (m1 ++ hdr ++ [.overLimit (s.total_size - target)], some e)
  else
    match warn_storage with
    | none => (m1, some .typeError)
    | some w =>
      if s.total_size > w then
        (m1 ++ (if done1 then [] else [.header folder_name]) ++
          [.warnMsg s.total_size w], none)
      else
        (m1, none)

/-- Python `str.strip()` with no argument: remove leading and trailing
whitespace.  (`String.trim` matches it but does not reduce in the kernel, so
the stripping is spelled out over the character list.) -/
def dropLeadingSpaces : List Char → List Char
  | [] => []
  | c :: rest => if c.isWhitespace then dropLeadingSpaces rest else c :: rest

/-- Python `value.strip()`: drop whitespace at both ends. -/
def pyStrip (s : String) : String :=
  ⟨(dropLeadingSpaces (dropLeadingSpaces s.data).reverse).reverse⟩

/-- Errors on which the configuration code calls `sys.exit`, by cause. -/
inductive ConfigError where
  /-- "ATTR attribute missing from configuration" (maintain.py:52). -/
  | attributeMissing (attr : String)
  /-- "ATTR attribute cannot be empty" (maintain.py:54). -/
  | attributeEmpty (attr : String)
  /-- "PATH is not a valid directory" (maintain.py:47). -/
  | invalidDirectory (path : String)
  /-- "Slack configuration not set correctly" (maintain.py:212). -/
  | slackMisconfigured
  deriving DecidableEq, Repr

/-- A folder configuration object: JSON keys to string values, in key order. -/
abbrev FolderConfig : Type := List (String × String)

/-- Dictionary lookup `folder[attribute]` / `attribute in folder`. -/
def lookupAttr (folder : FolderConfig) (attr : String) : Option String :=
  match folder with
  | [] => none
  | (k, v) :: rest => if k = attr then some v else lookupAttr rest attr

/-- `validate_attribute(folder, attribute, must_have_value)`
(maintain.py:49-54): exit when the key is absent (regardless of
`must_have_value`), and when `must_have_value` and the stripped value is
empty. -/
def validate_attribute (folder : FolderConfig) (attr : String)
    (must_have_value : Bool := true) : Except ConfigError Unit :=
  match lookupAttr folder attr with
  | none => .error (.attributeMissing attr)
  | some v =>
    if must_have_value && pyStrip v == "" then .error (.attributeEmpty attr)
    else .ok ()

/-- `validate_folder(folder)` (maintain.py:37-47).  The filesystem test
`os.path.isdir` is abstracted as the predicate `isdir`.  The final lookup of
`upload_path` cannot miss because its `validate_attribute` succeeded. -/
def validate_folder (isdir : String → Bool) (folder : FolderConfig) :
    Except ConfigError Unit := do
  validate_attribute folder "name"
  validate_attribute folder "upload_path"
  validate_attribute folder "max_age"
  validate_attribute folder "max_storage"
  validate_attribute folder "warn_storage" false
  match lookupAttr folder "upload_path" with
  | some path => if isdir path then .ok () else .error (.invalidDirectory path)
  | none => .error (.attributeMissing "upload_path")

/-- The credential-normalisation step of `main` (maintain.py:201-210): a key
counts (and its stripped value is kept) only when present with a value that
is non-empty after stripping. -/
def normalizeCred (v : Option String) : Option String :=
  match v with
  | none => none
  | some s => if pyStrip s = "" then none else some (pyStrip s)

/-- The Slack configuration check of `main` (maintain.py:195-212): count the
credentials that are set (present and non-blank); exit unless the count is 0
or 2, otherwise proceed with the normalised pair. -/
def checkSlackConfig (slack_auth_token slack_channel_id : Option String) :
    Except ConfigError (Option String × Option String) :=
  let tok := normalizeCred slack_auth_token
  let chan := normalizeCred slack_channel_id
  let count : Nat := (if tok.isSome then 1 else 0) + (if chan.isSome then 1 else 0)
  if count ≠ 0 ∧ count ≠ 2 then .error .slackMisconfigured
  else .ok (tok, chan)

/-- The local frame of `get_under_max_size` (maintain.py:138-148), one field
per local variable, to make visible which variables the loop assigns. -/
structure EvictFrame where
  file_list : List FileRecord
  sorted_list : List FileRecord
  total_size : Int
  index : Nat
  report : List (String × Int)
  deriving DecidableEq, Repr

/-- The while loop of maintain.py:145-148 on the explicit frame.  `rest` is
the suffix `sorted_list[index:]` still ahead of the cursor; each iteration
reads `sorted_list[index]`, appends to `report`, lowers `total_size` and
advances `index` — `file_list` and `sorted_list` are never assigned. -/
def evictFrameGo (max_storage : Int) : List FileRecord → EvictFrame →
    Except PyErr EvictFrame
  | rest, s =>
    if s.total_size > max_storage then
      match rest with
      | [] => .error .indexError
      | f :: more =>
        evictFrameGo max_storage more
          { s with total_size := s.total_size - f.size,
                   index := s.index + 1,
                   report := delete_file f s.report }
    else
      .ok s

/-- `get_under_max_size` run on the explicit frame: build `sorted_list` as a
fresh sorted copy of `file_list` (maintain.py:142, `sorted(...)` allocates a
new list), then run the loop from `index = 0` with an empty report. -/
def get_under_max_size_frame (file_list : List FileRecord)
    (total_size max_storage : Int) : Except PyErr EvictFrame :=
  let sorted := sortFiles file_list
  evictFrameGo max_storage sorted
    { file_list := file_list, sorted_list := sorted,
      total_size := total_size, index := 0, report := [] }

/-! ### Helper lemmas about the eviction loop -/

theorem sumSizes_nil : sumSizes [] = 0 := rfl

theorem sumSizes_cons (f : FileRecord) (l : List FileRecord) :
    sumSizes (f :: l) = f.size + sumSizes l := by
  simp [sumSizes]

theorem sumSizes_nonneg (l : List FileRecord) (h : ∀ f ∈ l, 0 ≤ f.size) :
    0 ≤ sumSizes l := by
  induction l with
  | nil => simp [sumSizes]
  | cons f rest ih =>
    rw [sumSizes_cons]
    have h1 := h f (by simp)
    have h2 := ih (fun g hg => h g (by simp [hg]))
    omega

theorem sumSizes_perm {l₁ l₂ : List FileRecord} (h : l₁.Perm l₂) :
    sumSizes l₁ = sumSizes l₂ :=
  (h.map FileRecord.size).sum_eq

/-- When deleting the whole list would suffice, the loop completes normally,
the deleted records are the shortest prefix bringing the total under the
limit, and the final total is the initial one minus the deleted sizes. -/
theorem evictLoop_spec (max_storage : Int) (l : List FileRecord) :
    ∀ total_size : Int, total_size - sumSizes l ≤ max_storage →
    ∃ d r, evictLoop max_storage l total_size = .ok (d, r) ∧
      d = l.take d.length ∧ r = total_size - sumSizes d ∧ r ≤ max_storage ∧
      ∀ k, total_size - sumSizes (l.take k) ≤ max_storage → d.length ≤ k := by
  induction l with
  | nil =>
    intro total h
    rw [sumSizes_nil] at h
    refine ⟨[], total, ?_, rfl, by rw [sumSizes_nil]; omega, by omega,
      fun k _ => Nat.zero_le k⟩
    rw [evictLoop]
    simp only [if_neg (by omega : ¬ total > max_storage)]
  | cons f rest ih =>
    intro total h
    by_cases hgt : total > max_storage
    · obtain ⟨d, r, hok, htake, hr, hle, hmin⟩ :=
        ih (total - f.size) (by rw [sumSizes_cons] at h; omega)
      refine ⟨f :: d, r, ?_, ?_, ?_, hle, ?_⟩
      · rw [evictLoop]
        simp only [if_pos hgt, hok, Except.map]
      · simp only [List.length_cons, List.take_succ_cons]
        rw [← htake]
      · rw [sumSizes_cons]; omega
      · intro k hk
        match k with
        | 0 =>
          rw [List.take_zero, sumSizes_nil] at hk
          omega
        | k + 1 =>
          rw [List.take_succ_cons, sumSizes_cons] at hk
          have := hmin k (by omega)
          simpa using Nat.succ_le_succ this
    · refine ⟨[], total, ?_, rfl, by rw [sumSizes_nil]; omega, by omega,
        fun k _ => Nat.zero_le k⟩
      rw [evictLoop]
      simp only [if_neg hgt]

/-- Whatever the numeric arguments, a normal completion of the loop deletes
a prefix of the list and returns the total lowered by the deleted sizes. -/
theorem evictLoop_shape (max_storage : Int) (l : List FileRecord) :
    ∀ total_size d r, evictLoop max_storage l total_size = .ok (d, r) →
      d = l.take d.length ∧ r = total_size - sumSizes d := by
  induction l with
  | nil =>
    intro total d r h
    rw [evictLoop] at h
    split at h
    · exact absurd h (by simp)
    · obtain ⟨rfl, rfl⟩ : ([] : List FileRecord) = d ∧ total = r := by
        simpa using h
      exact ⟨rfl, by rw [sumSizes_nil]; omega⟩
  | cons f rest ih =>
    intro total d r h
    rw [evictLoop] at h
    split at h
    · rcases heq : evictLoop max_storage rest (total - f.size) with e | p
      · rw [heq] at h
        exact absurd h (by simp [Except.map])
      · rw [heq] at h
        obtain ⟨rfl, rfl⟩ : f :: p.1 = d ∧ p.2 = r := by
          simpa [Except.map] using h
        obtain ⟨htake, hr⟩ := ih (total - f.size) p.1 p.2 (by rw [heq])
        constructor
        · simp only [List.length_cons, List.take_succ_cons]
          rw [← htake]
        · rw [sumSizes_cons]; omega
    · obtain ⟨rfl, rfl⟩ : ([] : List FileRecord) = d ∧ total = r := by
        simpa using h
      exact ⟨rfl, by rw [sumSizes_nil]; omega⟩

/-- When even deleting every file leaves the total over the limit (which for
non-negative sizes forces a negative limit), the loop runs off the end of
the list and raises `IndexError`. -/
theorem evictLoop_error (max_storage : Int) (l : List FileRecord)
    (hsz : ∀ f ∈ l, 0 ≤ f.size) :
    ∀ total_size : Int, max_storage < total_size - sumSizes l →
      evictLoop max_storage l total_size = .error .indexError := by
  induction l with
  | nil =>
    intro total h
    rw [sumSizes_nil] at h
    rw [evictLoop]
    simp only [if_pos (by omega : total > max_storage)]
  | cons f rest ih =>
    intro total h
    rw [sumSizes_cons] at h
    have h0 : 0 ≤ f.size := hsz f (by simp)
    have hrest : 0 ≤ sumSizes rest :=
      sumSizes_nonneg rest (fun g hg => hsz g (by simp [hg]))
    rw [evictLoop]
    simp only [if_pos (by omega : total > max_storage)]
    rw [ih (fun g hg => hsz g (by simp [hg])) (total - f.size) (by omega)]
    rfl

/-! ### C1, C5, C6: the eviction selector -/

/-- C1: for every retained file list with its total size, and a target size
with total size > target ≥ 0, `get_under_max_size` completes normally, the
remaining total is ≤ the target, and the files deleted are the shortest
oldest-first prefix of the date-sorted list whose removal achieves that. -/
theorem get_under_max_size_correct (file_list : List FileRecord)
    (total_size max_storage : Int)
    (hsz : ∀ f ∈ file_list, 0 ≤ f.size)
    (htot : total_size = sumSizes file_list)
    (htgt : 0 ≤ max_storage) (hover : max_storage < total_size) :
    ∃ d r, get_under_max_size file_list total_size max_storage = .ok (d, r) ∧
      r ≤ max_storage ∧ r = total_size - sumSizes d ∧
      d = (sortFiles file_list).take d.length ∧
      ∀ k, total_size - sumSizes ((sortFiles file_list).take k) ≤ max_storage →
        d.length ≤ k := by
  have hsum : sumSizes (sortFiles file_list) = sumSizes file_list :=
    sumSizes_perm (List.perm_insertionSort dateLE file_list)
  obtain ⟨d, r, hok, htake, hr, hle, hmin⟩ :=
    evictLoop_spec max_storage (sortFiles file_list) total_size
      (by rw [hsum, ← htot]; omega)
  exact ⟨d, r, hok, hle, hr, htake, hmin⟩

/-- Witness for C1 at a one-file list: sizes 5, target 2, one deletion. -/
theorem get_under_max_size_correct_witness :
    ((5 : Int) = sumSizes [FileRecord.mk "a" 0 5] ∧ (0 : Int) ≤ 2 ∧ (2 : Int) < 5) ∧
    (∃ d r, get_under_max_size [FileRecord.mk "a" 0 5] 5 2 = .ok (d, r) ∧
      r ≤ 2 ∧ r = 5 - sumSizes d ∧
      d = (sortFiles [FileRecord.mk "a" 0 5]).take d.length ∧
      ∀ k, (5 : Int) - sumSizes ((sortFiles [FileRecord.mk "a" 0 5]).take k) ≤ 2 →
        d.length ≤ k) :=
  ⟨⟨by decide, by decide, by decide⟩,
   get_under_max_size_correct [FileRecord.mk "a" 0 5] 5 2 (by decide) (by decide)
     (by decide) (by decide)⟩

/-- C5: the eviction order is ascending modification date, ties kept in
original encounter order (stable sort), and deletion never skips: if an
eviction run deletes `B`, it deletes every retained `A` strictly older. -/
theorem eviction_oldest_first (file_list : List FileRecord) :
    (sortFiles file_list).Sorted dateLE ∧
    (sortFiles file_list).Perm file_list ∧
    (∀ A B, [A, B].Sublist file_list → dateLE A B →
      [A, B].Sublist (sortFiles file_list)) ∧
    (∀ total_size max_storage d r A B,
      get_under_max_size file_list total_size max_storage = .ok (d, r) →
      A ∈ file_list → A.date < B.date → B ∈ d → A ∈ d) := by
  have hsorted : (sortFiles file_list).Sorted dateLE :=
    List.sorted_insertionSort dateLE file_list
  have hperm : (sortFiles file_list).Perm file_list :=
    List.perm_insertionSort dateLE file_list
  refine ⟨hsorted, hperm, ?_, ?_⟩
  · intro A B hsub hle
    exact List.sublist_insertionSort (List.pairwise_pair.mpr hle) hsub
  · intro total_size max_storage d r A B hok hA hAB hBd
    obtain ⟨htake, -⟩ :=
      evictLoop_shape max_storage (sortFiles file_list) total_size d r hok
    have hA2 : A ∈ sortFiles file_list := hperm.mem_iff.mpr hA
    have hsplit := List.take_append_drop d.length (sortFiles file_list)
    have hpw : ((sortFiles file_list).take d.length ++
        (sortFiles file_list).drop d.length).Pairwise dateLE := by
      rw [hsplit]; exact hsorted
    have hcross := (List.pairwise_append.mp hpw).2.2
    rw [← hsplit] at hA2
    rcases List.mem_append.mp hA2 with hAtake | hAdrop
    · rwa [← htake] at hAtake
    · have hBtake : B ∈ (sortFiles file_list).take d.length := htake ▸ hBd
      have : B.date ≤ A.date := hcross B hBtake A hAdrop
      omega

/-- Witness for C5: on files named b (newer) then a (older), an eviction run
that deletes b also deletes a, first in the deletion order. -/
theorem eviction_oldest_first_witness :
    get_under_max_size [FileRecord.mk "b" 1 1, FileRecord.mk "a" 0 5] 6 0 =
      .ok ([FileRecord.mk "a" 0 5, FileRecord.mk "b" 1 1], 0) ∧
    FileRecord.mk "a" 0 5 ∈ [FileRecord.mk "a" 0 5, FileRecord.mk "b" 1 1] :=
  ⟨rfl,
   (eviction_oldest_first [FileRecord.mk "b" 1 1, FileRecord.mk "a" 0 5]).2.2.2
     6 0 [FileRecord.mk "a" 0 5, FileRecord.mk "b" 1 1] 0
     (FileRecord.mk "a" 0 5) (FileRecord.mk "b" 1 1)
     rfl (by decide) (by decide) (by decide)⟩

/-- C6 (amended): with the total equal to the sum of the (non-negative)
sizes, the loop completes normally whenever the target is ≥ 0; with a
negative target it instead raises `IndexError` after deleting every file. -/
theorem get_under_max_size_terminates (file_list : List FileRecord)
    (total_size max_storage : Int)
    (hsz : ∀ f ∈ file_list, 0 ≤ f.size)
    (htot : total_size = sumSizes file_list) :
    (0 ≤ max_storage →
      ∃ d r, get_under_max_size file_list total_size max_storage = .ok (d, r)) ∧
    (max_storage < 0 →
      get_under_max_size file_list total_size max_storage =
        .error .indexError) := by
  have hperm : (sortFiles file_list).Perm file_list :=
    List.perm_insertionSort dateLE file_list
  have hsum : sumSizes (sortFiles file_list) = sumSizes file_list :=
    sumSizes_perm hperm
  have hszs : ∀ f ∈ sortFiles file_list, 0 ≤ f.size :=
    fun f hf => hsz f (hperm.mem_iff.mp hf)
  constructor
  · intro h0
    obtain ⟨d, r, hok, -⟩ :=
      evictLoop_spec max_storage (sortFiles file_list) total_size
        (by rw [hsum, ← htot]; omega)
    exact ⟨d, r, hok⟩
  · intro hneg
    exact evictLoop_error max_storage (sortFiles file_list) hszs total_size
      (by rw [hsum, ← htot]; omega)

/-- Witness for C6 (amended) at a one-file list with target 0. -/
theorem get_under_max_size_terminates_witness :
    ((∀ f ∈ [FileRecord.mk "a" 0 5], 0 ≤ f.size) ∧
      (5 : Int) = sumSizes [FileRecord.mk "a" 0 5]) ∧
    (((0 : Int) ≤ 0 →
      ∃ d r, get_under_max_size [FileRecord.mk "a" 0 5] 5 0 = .ok (d, r)) ∧
     ((0 : Int) < 0 →
      get_under_max_size [FileRecord.mk "a" 0 5] 5 0 = .error .indexError)) :=
  ⟨⟨by decide, by decide⟩,
   get_under_max_size_terminates [FileRecord.mk "a" 0 5] 5 0 (by decide)
     (by decide)⟩

/-- C6 counterexample: with target −1 the loop deletes the whole list and
then raises `IndexError` from `sorted_list[index]` — it does not return
normally at the empty list with remaining total 0 as the claim states. -/
theorem get_under_max_size_negative_target_raises :
    get_under_max_size [FileRecord.mk "a" 0 5] 5 (-1) = .error .indexError :=
  rfl

/-! ### C10: the eviction selector does not mutate its input -/

/-- The while loop assigns only `total_size`, `index` and `report`: the
`file_list` and `sorted_list` fields it finishes with are the ones it was
entered with. -/
theorem evictFrameGo_preserves (max_storage : Int) (rest : List FileRecord) :
    ∀ s s2 : EvictFrame, evictFrameGo max_storage rest s = .ok s2 →
      s2.file_list = s.file_list ∧ s2.sorted_list = s.sorted_list := by
  induction rest with
  | nil =>
    intro s s2 h
    rw [evictFrameGo] at h
    split at h
    · exact absurd h (by simp)
    · obtain rfl : s = s2 := by simpa using h
      exact ⟨rfl, rfl⟩
  | cons f more ih =>
    intro s s2 h
    rw [evictFrameGo] at h
    split at h
    · obtain ⟨h1, h2⟩ := ih
        { s with total_size := s.total_size - f.size, index := s.index + 1,
                 report := delete_file f s.report } s2 h
      exact ⟨h1, h2⟩
    · obtain rfl : s = s2 := by simpa using h
      exact ⟨rfl, rfl⟩

/-- C10: `get_under_max_size` works on a fresh sorted copy (maintain.py:142)
and never assigns its `file_list` argument or any record in it: on a normal
return the frame still holds the caller's list, unchanged, and the sorted
copy of exactly that list. -/
theorem get_under_max_size_no_mutation (file_list : List FileRecord)
    (total_size max_storage : Int) (s2 : EvictFrame)
    (h : get_under_max_size_frame file_list total_size max_storage = .ok s2) :
    s2.file_list = file_list ∧ s2.sorted_list = sortFiles file_list := by
  exact evictFrameGo_preserves max_storage (sortFiles file_list) _ s2 h

/-- Witness for C10 at a one-file list: after one deletion the frame still
holds the caller's list. -/
theorem get_under_max_size_no_mutation_witness :
    ({ file_list := [FileRecord.mk "a" 0 5],
       sorted_list := [FileRecord.mk "a" 0 5],
       total_size := 0, index := 1, report := [("a", 0)] } : EvictFrame).file_list =
      [FileRecord.mk "a" 0 5] ∧
    ({ file_list := [FileRecord.mk "a" 0 5],
       sorted_list := [FileRecord.mk "a" 0 5],
       total_size := 0, index := 1, report := [("a", 0)] } : EvictFrame).sorted_list =
      sortFiles [FileRecord.mk "a" 0 5] :=
  get_under_max_size_no_mutation [FileRecord.mk "a" 0 5] 5 2 _ rfl

/-! ### C2: the scanner classifies each visited file -/

/-- Unrolling the scan fold from an arbitrary starting state: the retained
files are the visited files not older than the cutoff, appended in visit
order; the report holds (path, date) of the older ones; the total grows by
the retained sizes. -/
theorem scanFolder_foldl (earliest_date : Int) (files : List FileRecord) :
    ∀ s : ScanState,
      files.foldl (scanStep earliest_date) s =
        { total_size := s.total_size +
            sumSizes (files.filter (fun f => !decide (f.date < earliest_date))),
          file_list := s.file_list ++
            files.filter (fun f => !decide (f.date < earliest_date)),
          deleted_report := s.deleted_report ++
            (files.filter (fun f => decide (f.date < earliest_date))).map
              (fun f => (f.name, f.date)) } := by
  induction files with
  | nil =>
    intro s
    simp [sumSizes]
  | cons f rest ih =>
    intro s
    rw [List.foldl_cons]
    by_cases hf : f.date < earliest_date
    · rw [ih]
      simp [scanStep, hf, delete_file, List.filter_cons]
    · rw [ih]
      simp [scanStep, hf, List.filter_cons, sumSizes_cons, List.append_assoc]
      omega

/-- Closed form of `scanFolder`. -/
theorem scanFolder_eq (earliest_date : Int) (files : List FileRecord) :
    scanFolder earliest_date files =
      { total_size :=
          sumSizes (files.filter (fun f => !decide (f.date < earliest_date))),
        file_list := files.filter (fun f => !decide (f.date < earliest_date)),
        deleted_report :=
          (files.filter (fun f => decide (f.date < earliest_date))).map
            (fun f => (f.name, f.date)) } := by
  unfold scanFolder
  rw [scanFolder_foldl]
  simp

/-- C2: a visited file whose date is strictly before the cutoff is deleted
and its (path, date) reported; any other visited file (paths distinct, as a
filesystem walk yields) is retained, is counted exactly once, is absent from
the expired report, and the total is the sum of the retained sizes. -/
theorem scan_classifies (earliest_date : Int) (files : List FileRecord)
    (f : FileRecord)
    (hnd : (files.map FileRecord.name).Nodup) (hf : f ∈ files) :
    (f.date < earliest_date →
      (f.name, f.date) ∈ (scanFolder earliest_date files).deleted_report ∧
      f ∉ (scanFolder earliest_date files).file_list) ∧
    (¬ f.date < earliest_date →
      f ∈ (scanFolder earliest_date files).file_list ∧
      (scanFolder earliest_date files).file_list.count f = 1 ∧
      (f.name, f.date) ∉ (scanFolder earliest_date files).deleted_report ∧
      (scanFolder earliest_date files).total_size =
        sumSizes (scanFolder earliest_date files).file_list) := by
  rw [scanFolder_eq]
  have hinj := List.inj_on_of_nodup_map hnd
  constructor
  · intro hlt
    constructor
    · exact List.mem_map.mpr ⟨f, List.mem_filter.mpr ⟨hf, by simpa using hlt⟩, rfl⟩
    · intro hmem
      have hkeep := (List.mem_filter.mp hmem).2
      simp [hlt] at hkeep
  · intro hge
    have hfmem : f ∈ files.filter (fun g => !decide (g.date < earliest_date)) :=
      List.mem_filter.mpr ⟨hf, by simpa using hge⟩
    refine ⟨hfmem, ?_, ?_, rfl⟩
    · have hnodup : files.Nodup := List.Nodup.of_map FileRecord.name hnd
      have h1 : files.count f = 1 := List.count_eq_one_of_mem hnodup hf
      have h2 : (files.filter (fun g => !decide (g.date < earliest_date))).count f =
          files.count f := List.count_filter (by simpa using hge)
      rw [h2, h1]
    · intro hmem
      obtain ⟨g, hg, hpair⟩ := List.mem_map.mp hmem
      have hgmem := (List.mem_filter.mp hg).1
      have hglt := (List.mem_filter.mp hg).2
      have hname : g.name = f.name := congrArg Prod.fst hpair
      have hgf : g = f := hinj hgmem hf hname
      rw [hgf] at hglt
      simp [hge] at hglt

/-- Witness for C2 at a two-file walk, one file below and one above the
cutoff, checked for the retained file. -/
theorem scan_classifies_witness :
    (([FileRecord.mk "old" 0 3, FileRecord.mk "new" 10 7].map
        FileRecord.name).Nodup ∧
      FileRecord.mk "new" 10 7 ∈
        [FileRecord.mk "old" 0 3, FileRecord.mk "new" 10 7]) ∧
    (((10 : Int) < 5 →
        ("new", (10 : Int)) ∈
          (scanFolder 5 [FileRecord.mk "old" 0 3,
            FileRecord.mk "new" 10 7]).deleted_report ∧
        FileRecord.mk "new" 10 7 ∉
          (scanFolder 5 [FileRecord.mk "old" 0 3,
            FileRecord.mk "new" 10 7]).file_list) ∧
     (¬ (10 : Int) < 5 →
        FileRecord.mk "new" 10 7 ∈
          (scanFolder 5 [FileRecord.mk "old" 0 3,
            FileRecord.mk "new" 10 7]).file_list ∧
        (scanFolder 5 [FileRecord.mk "old" 0 3,
          FileRecord.mk "new" 10 7]).file_list.count (FileRecord.mk "new" 10 7) = 1 ∧
        ("new", (10 : Int)) ∉
          (scanFolder 5 [FileRecord.mk "old" 0 3,
            FileRecord.mk "new" 10 7]).deleted_report ∧
        (scanFolder 5 [FileRecord.mk "old" 0 3,
          FileRecord.mk "new" 10 7]).total_size =
          sumSizes (scanFolder 5 [FileRecord.mk "old" 0 3,
            FileRecord.mk "new" 10 7]).file_list)) :=
  ⟨⟨by decide, by decide⟩,
   scan_classifies 5 [FileRecord.mk "old" 0 3, FileRecord.mk "new" 10 7]
     (FileRecord.mk "new" 10 7) (by decide) (by decide)⟩

/-! ### C3, C4, C7: the retention evaluator in `process_folder` -/

/-- C3: the over-limit action (the freed-bytes message, reporting
total − target with target = warn threshold if set else the max) fires
exactly when the total exceeds `max_storage`; a warning message is emitted
only when `warn_storage` is set, the total exceeds it, and the total does
not exceed `max_storage`. -/
theorem storage_outcomes (folder_name : String) (days_to_keep earliest_date : Int)
    (files : List FileRecord) (max_storage : Int) (warn_storage : Option Int) :
    ((∃ b, Msg.overLimit b ∈ (process_folder folder_name days_to_keep
        earliest_date files max_storage warn_storage).1) ↔
      (scanFolder earliest_date files).total_size > max_storage) ∧
    ((scanFolder earliest_date files).total_size > max_storage →
      Msg.overLimit ((scanFolder earliest_date files).total_size -
          warn_storage.getD max_storage) ∈
        (process_folder folder_name days_to_keep earliest_date files
          max_storage warn_storage).1) ∧
    (∀ t w, Msg.warnMsg t w ∈ (process_folder folder_name days_to_keep
        earliest_date files max_storage warn_storage).1 →
      warn_storage = some w ∧ t = (scanFolder earliest_date files).total_size ∧
      (scanFolder earliest_date files).total_size > w ∧
      (scanFolder earliest_date files).total_size ≤ max_storage) := by
  rcases warn_storage with _ | w
  · by_cases hover : (scanFolder earliest_date files).total_size > max_storage
    · rcases hev : get_under_max_size (scanFolder earliest_date files).file_list
          (scanFolder earliest_date files).total_size max_storage with e | p <;>
        by_cases hemp : (scanFolder earliest_date files).deleted_report.isEmpty <;>
        simp [process_folder, hover, hev, hemp]
    · by_cases hemp : (scanFolder earliest_date files).deleted_report.isEmpty <;>
        simp [process_folder, hover, hemp]
  · by_cases hover : (scanFolder earliest_date files).total_size > max_storage
    · rcases hev : get_under_max_size (scanFolder earliest_date files).file_list
          (scanFolder earliest_date files).total_size w with e | p <;>
        by_cases hemp : (scanFolder earliest_date files).deleted_report.isEmpty <;>
        simp [process_folder, hover, hev, hemp]
    · by_cases hw : (scanFolder earliest_date files).total_size > w <;>
        by_cases hemp : (scanFolder earliest_date files).deleted_report.isEmpty <;>
        simp [process_folder, hover, hw, hemp] <;> omega

/-- Witness for C3: two retained files of sizes 6 and 1 (total 7), max 3,
warn unset, over limit. -/
theorem storage_outcomes_witness :
    ((∃ b, Msg.overLimit b ∈ (process_folder "f" 30 0
        [FileRecord.mk "a" 0 6, FileRecord.mk "b" 1 1] 3 none).1) ↔
      (scanFolder 0 [FileRecord.mk "a" 0 6, FileRecord.mk "b" 1 1]).total_size > 3) ∧
    ((scanFolder 0 [FileRecord.mk "a" 0 6, FileRecord.mk "b" 1 1]).total_size > 3 →
      Msg.overLimit ((scanFolder 0 [FileRecord.mk "a" 0 6,
          FileRecord.mk "b" 1 1]).total_size - (none : Option Int).getD 3) ∈
        (process_folder "f" 30 0
          [FileRecord.mk "a" 0 6, FileRecord.mk "b" 1 1] 3 none).1) ∧
    (∀ t w, Msg.warnMsg t w ∈ (process_folder "f" 30 0
        [FileRecord.mk "a" 0 6, FileRecord.mk "b" 1 1] 3 none).1 →
      (none : Option Int) = some w ∧
      t = (scanFolder 0 [FileRecord.mk "a" 0 6, FileRecord.mk "b" 1 1]).total_size ∧
      (scanFolder 0 [FileRecord.mk "a" 0 6, FileRecord.mk "b" 1 1]).total_size > w ∧
      (scanFolder 0 [FileRecord.mk "a" 0 6, FileRecord.mk "b" 1 1]).total_size ≤ 3) :=
  storage_outcomes "f" 30 0 [FileRecord.mk "a" 0 6, FileRecord.mk "b" 1 1] 3 none

/-- C4 (code bug): for a folder with no `warn_storage` key and a total not
over the limit, the warning check `total_size > warn_storage` compares an
int with `None` and raises `TypeError` — it is not guarded as the spec
requires.  Here: no files (total 0), `max_storage` 0. -/
theorem warn_unset_raises_typeError :
    process_folder "folder" 30 0 [] 0 none = ([], some PyErr.typeError) := by
  decide

/-- C7: the header naming the folder is emitted exactly once and first, and
only when some substantive report follows it; a folder with nothing to
report emits nothing at all. -/
theorem header_once_first (folder_name : String) (days_to_keep earliest_date : Int)
    (files : List FileRecord) (max_storage : Int) (warn_storage : Option Int) :
    (process_folder folder_name days_to_keep earliest_date files max_storage
        warn_storage).1 = [] ∨
    ∃ rest, (process_folder folder_name days_to_keep earliest_date files
        max_storage warn_storage).1 = Msg.header folder_name :: rest ∧
      rest ≠ [] ∧ rest.countP Msg.isHeader = 0 := by
  rcases warn_storage with _ | w
  · by_cases hover : (scanFolder earliest_date files).total_size > max_storage
    · rcases hev : get_under_max_size (scanFolder earliest_date files).file_list
          (scanFolder earliest_date files).total_size max_storage with e | p <;>
        by_cases hemp : (scanFolder earliest_date files).deleted_report.isEmpty <;>
        simp [process_folder, hover, hev, hemp, Msg.isHeader]
    · by_cases hemp : (scanFolder earliest_date files).deleted_report.isEmpty <;>
        simp [process_folder, hover, hemp, Msg.isHeader]
  · by_cases hover : (scanFolder earliest_date files).total_size > max_storage
    · rcases hev : get_under_max_size (scanFolder earliest_date files).file_list
          (scanFolder earliest_date files).total_size w with e | p <;>
        by_cases hemp : (scanFolder earliest_date files).deleted_report.isEmpty <;>
        simp [process_folder, hover, hev, hemp, Msg.isHeader]
    · by_cases hw : (scanFolder earliest_date files).total_size > w <;>
        by_cases hemp : (scanFolder earliest_date files).deleted_report.isEmpty <;>
        simp [process_folder, hover, hw, hemp, Msg.isHeader]

/-- Witness for C7 at an over-limit folder, whose output starts with the
header followed by the storage report. -/
theorem header_once_first_witness :
    (process_folder "f" 30 0 [FileRecord.mk "a" 0 6, FileRecord.mk "b" 1 1]
        3 none).1 = [] ∨
    ∃ rest, (process_folder "f" 30 0 [FileRecord.mk "a" 0 6,
        FileRecord.mk "b" 1 1] 3 none).1 = Msg.header "f" :: rest ∧
      rest ≠ [] ∧ rest.countP Msg.isHeader = 0 :=
  header_once_first "f" 30 0 [FileRecord.mk "a" 0 6, FileRecord.mk "b" 1 1] 3 none

/-! ### C8: the `warn_storage` key is required by validation -/

/-- C8 (code bug): a folder configuration with every required field present
and non-empty, an existing `upload_path`, but no `warn_storage` key, is
rejected by `validate_folder`: `validate_attribute(folder, "warn_storage",
False)` still exits when the key is absent (maintain.py:51-52), even though
`process_folder` treats the key as optional (maintain.py:70-73). -/
theorem validate_folder_rejects_missing_warn :
    validate_folder (fun p => p == "up")
      [("name", "lounge"), ("upload_path", "up"), ("max_age", "30"),
       ("max_storage", "100")] = .error (.attributeMissing "warn_storage") :=
  rfl

/-! ### C9: the Slack credential check -/

/-- C9 counterexample: both credential keys present, but one of them blank.
The claim says the run proceeds whenever both keys are present; the code
counts only non-blank values and exits. -/
theorem slack_partial_blank_counterexample :
    (some "tok" : Option String).isSome = true ∧
    (some "" : Option String).isSome = true ∧
    checkSlackConfig (some "tok") (some "") = .error .slackMisconfigured :=
  ⟨rfl, rfl, rfl⟩

/-- C9 (amended): with "present" meaning set to a value that is non-blank
after stripping, the check is both-or-neither: it exits exactly when one
credential is present and the other is not, and proceeds (with the stripped
values) otherwise. -/
theorem slack_both_or_neither (slack_auth_token slack_channel_id : Option String) :
    (checkSlackConfig slack_auth_token slack_channel_id =
        .error .slackMisconfigured ↔
      (normalizeCred slack_auth_token).isSome ≠
        (normalizeCred slack_channel_id).isSome) ∧
    ((normalizeCred slack_auth_token).isSome =
        (normalizeCred slack_channel_id).isSome →
      checkSlackConfig slack_auth_token slack_channel_id =
        .ok (normalizeCred slack_auth_token, normalizeCred slack_channel_id)) := by
  unfold checkSlackConfig
  cases htok : (normalizeCred slack_auth_token).isSome <;>
    cases hchan : (normalizeCred slack_channel_id).isSome <;>
    simp [htok, hchan]

/-- Witness for C9 (amended): with no credentials at all the run proceeds. -/
theorem slack_both_or_neither_witness :
    checkSlackConfig none none = .ok (none, none) :=
  (slack_both_or_neither none none).2 rfl
